import Mathlib

/-!
Shallow embedding of the streaming session coordinator of
`ai-realtime-translator` (the WebSocket server in the repository's server
file) together with the `/api/translate` REST endpoint.

The server runs on a single-threaded event loop.  Per-session state is the
`sessionData` record created in the `wss.on('connection')` handler.  The
only suspension points are the two awaited external calls inside
`processAudioStream` (`mistral.audio.transcriptions.complete` and
`mistral.chat.complete`).  We therefore model execution as a deterministic
transition function over labelled events: message arrivals (`audio`,
`config`, `stop`, `clear`), the debounce-timer callback firing, the socket
closing, and the resumption of a suspended invocation with the external
service's response (success payload or thrown error).  Code between two
suspension points runs atomically in one step, exactly as on the event
loop; an `await` of an already-resolved promise (the guard-return paths of
`processAudioStream`) runs its caller's continuation in the same step,
since that continuation is a microtask that executes before any further
event.  Suspended invocations are kept in an explicit task list; the
caller (`stop` handler or timer callback) of each invocation is recorded
on the task so that the code following the caller's `await` runs when the
invocation finishes.

Ghost instrumentation (not part of the program state, only of the
specification): `gatewayCalls` records the combined audio blob of every
transcription request issued to the external gateway; `emitted` records
every `ws.send` of a `transcription` or `error` event, tagged with the
blob of the invocation that sent it; `timerCount` counts the timers
currently registered with the runtime (`setTimeout` minus fired/cleared).
-/

/-- A raw audio fragment: a byte sequence (each byte a `Nat`). -/
abbrev Chunk := List Nat

/-- Which code is suspended on the `await processAudioStream(...)`:
the `stop` message handler, or the debounce-timer callback. -/
inductive Caller
  | timer
  | stop
deriving DecidableEq

/-- A suspended invocation of `processAudioStream`: waiting either on the
`mistral.audio.transcriptions.complete` call (with the combined blob) or on
the `mistral.chat.complete` call (after `lastTranscript` was updated). -/
inductive TaskSt
  | atTranscribe (blob : Chunk) (isFinal : Bool) (caller : Caller)
  | atTranslate (blob : Chunk) (newText : String) (isFinal : Bool) (caller : Caller)
deriving DecidableEq

/-- Payload of an outbound `ws.send` of interest: a `transcription` result
event or an `error` event (the `connected` greeting is irrelevant here). -/
inductive OutEvent
  | transcription (sourceText : String) (targetText : String) (isFinal : Bool)
  | errorEvent
deriving DecidableEq

/-- A sent event together with ghost provenance: the combined audio blob of
the invocation that emitted it. -/
structure Emitted where
  blob : Chunk
  event : OutEvent
deriving DecidableEq

/-- The `sessionData` record of the connection handler.  `timerPending`
models `processingTimer !== null` (holding a live timer reference). -/
structure Session where
  audioChunks : List Chunk
  lastTranscript : String
  lastTranslation : String
  isProcessing : Bool
  sourceLanguage : String
  targetLanguage : String
  timerPending : Bool
deriving DecidableEq

/-- Whole-system state for one session: the session record, the suspended
invocations, and the ghost trace fields. -/
structure SysState where
  sess : Session
  tasks : List TaskSt
  emitted : List Emitted
  timerCount : Nat
  gatewayCalls : List Chunk
deriving DecidableEq

deriving instance DecidableEq for Except

/-- Events driving the event loop.  Resumption labels carry the external
service's response: `Except.error` models a thrown error, `Except.ok o`
a response whose text field is `o` (`none` = field absent). -/
inductive Label
  | msgAudio (audio : Chunk) (sl : Option String) (tl : Option String)
  | msgConfig (sl : Option String) (tl : Option String)
  | msgStop (audio : Option Chunk) (sl : Option String) (tl : Option String)
  | msgClear
  | timerFire
  | wsClose
  | transcribeRet (i : Nat) (r : Except Unit (Option String))
  | translateRet (i : Nat) (r : Except Unit (Option String))
deriving DecidableEq

/-- JavaScript `x || d` for an optional string: `none` and `""` are falsy. -/
def jsOr (o : Option String) (d : String) : String :=
  match o with
  | none => d
  | some s => if s = "" then d else s

/-- JavaScript truthiness test `!x` for an optional string. -/
def jsFalsy (o : Option String) : Bool :=
  match o with
  | none => true
  | some s => s = ""

/-- `Buffer.concat(sessionData.audioChunks)`. -/
def bufferConcat (chunks : List Chunk) : Chunk :=
  chunks.foldr List.append []

/-- `if (sessionData.processingTimer) { clearTimeout(...); processingTimer = null; }`. -/
def cancelTimer (s : SysState) : SysState :=
  if s.sess.timerPending then
    { s with sess := { s.sess with timerPending := false },
             timerCount := s.timerCount - 1 }
  else s

/-- `scheduleProcessing`: `if (sessionData.processingTimer) return;` then
`sessionData.processingTimer = setTimeout(..., 150)`.  Only arms the timer;
the callback body is `fireTimer`. -/
def scheduleProcessing (s : SysState) : SysState :=
  if s.sess.timerPending then s
  else
    { s with sess := { s.sess with timerPending := true },
             timerCount := s.timerCount + 1 }

/-- Code of the caller that resumes after `await processAudioStream(...)`
returns: the `stop` handler resets buffer and last-emitted fields; the
timer callback re-arms the debounce timer when audio is still buffered. -/
def runCallerCont (s : SysState) : Caller → SysState
  | Caller.stop =>
      { s with sess := { s.sess with audioChunks := [], lastTranscript := "",
                                     lastTranslation := "" } }
  | Caller.timer =>
      if s.sess.audioChunks.length = 0 then s else scheduleProcessing s

/-- Synchronous prefix of `processAudioStream(ws, id, sessionData, isFinal)`
up to its first true suspension point: the guard
`if (isProcessing || audioChunks.length === 0) return;`, setting
`isProcessing = true`, `Buffer.concat`, the `minAudioSize` check with early
release, and otherwise issuing the transcription request (the invocation
suspends as an `atTranscribe` task).  When the function returns without
suspending, the caller's continuation runs in the same step. -/
def startInvocation (s : SysState) (isFinal : Bool) (caller : Caller) : SysState :=
  if s.sess.isProcessing ∨ s.sess.audioChunks.length = 0 then
    runCallerCont s caller
  else
    let s1 : SysState := { s with sess := { s.sess with isProcessing := true } }
    let combined : Chunk := bufferConcat s1.sess.audioChunks
    let minAudioSize : Nat := if isFinal then 0 else 4000
    if combined.length < minAudioSize ∧ isFinal = false then
      runCallerCont { s1 with sess := { s1.sess with isProcessing := false } } caller
    else
      { s1 with tasks := s1.tasks ++ [TaskSt.atTranscribe combined isFinal caller],
                gatewayCalls := s1.gatewayCalls ++ [combined] }

/-- The `finally { sessionData.isProcessing = false; }` block followed by
removal of the finished invocation and the caller's continuation. -/
def finishTask (s : SysState) (i : Nat) (caller : Caller) : SysState :=
  runCallerCont
    { s with sess := { s.sess with isProcessing := false },
             tasks := s.tasks.eraseIdx i } caller

/-- Handler of an `audio` message: append the fragment, update the language
pair with `|| 'zh'` / `|| 'en'` defaulting, and arm the scheduler when no
invocation is in flight. -/
def handleAudio (s : SysState) (audio : Chunk) (sl tl : Option String) : SysState :=
  let s1 : SysState :=
    { s with sess := { s.sess with audioChunks := s.sess.audioChunks ++ [audio],
                                   sourceLanguage := jsOr sl "zh",
                                   targetLanguage := jsOr tl "en" } }
  if s1.sess.isProcessing then s1 else scheduleProcessing s1

/-- Handler of a `config` message: update the language pair only. -/
def handleConfig (s : SysState) (sl tl : Option String) : SysState :=
  { s with sess := { s.sess with sourceLanguage := jsOr sl "zh",
                                 targetLanguage := jsOr tl "en" } }

/-- Handler of a `stop` message: cancel any pending timer, then
`await processAudioStream(ws, id, sessionData, true)`; the resets after the
`await` are the `Caller.stop` continuation.  The handler reads no audio
payload from the message. -/
def handleStop (s : SysState) : SysState :=
  startInvocation (cancelTimer s) true Caller.stop

/-- Handler of a `clear` message: reset buffer, last-emitted fields and
`isProcessing`, then cancel any pending timer. -/
def handleClear (s : SysState) : SysState :=
  cancelTimer
    { s with sess := { s.sess with audioChunks := [], lastTranscript := "",
                                   lastTranslation := "", isProcessing := false } }

/-- The debounce-timer callback: null the timer reference, and when audio is
buffered and no invocation is in flight, run
`await processAudioStream(ws, id, sessionData, false)` (whose post-`await`
re-arming is the `Caller.timer` continuation). -/
def fireTimer (s : SysState) : SysState :=
  if s.sess.timerPending = false then s
  else
    let s0 : SysState := { s with sess := { s.sess with timerPending := false },
                                  timerCount := s.timerCount - 1 }
    if 0 < s0.sess.audioChunks.length ∧ s0.sess.isProcessing = false then
      startInvocation s0 false Caller.timer
    else s0

/-- Resumption of a suspended invocation at the transcription call.
On a thrown error: the `catch` block sends an `error` event, then the
`finally` block and the caller's continuation run.  On success:
`newText = response.text || ''`; when non-empty and different from
`lastTranscript`, `lastTranscript` is updated and the invocation suspends on
the chat call; otherwise the `if (isFinal)` reset and the `finally` block
run. -/
def transcribeReturn (s : SysState) (i : Nat) (r : Except Unit (Option String)) : SysState :=
  match s.tasks[i]? with
  | some (TaskSt.atTranscribe blob fin caller) =>
    match r with
    | Except.error _ =>
        finishTask { s with emitted := s.emitted ++ [⟨blob, OutEvent.errorEvent⟩] } i caller
    | Except.ok o =>
        let newText : String := o.getD ""
        if newText ≠ "" ∧ newText ≠ s.sess.lastTranscript then
          { s with sess := { s.sess with lastTranscript := newText },
                   tasks := s.tasks.set i (TaskSt.atTranslate blob newText fin caller) }
        else
          let s1 : SysState :=
            if fin then
              { s with sess := { s.sess with audioChunks := [], lastTranscript := "",
                                             lastTranslation := "" } }
            else s
          finishTask s1 i caller
  | _ => s

/-- Resumption of a suspended invocation at the chat (translation) call.
On a thrown error: `error` event, `finally`, caller continuation.  On
success: `translatedText = choices?.[0]?.message?.content || ''`,
`lastTranslation` is updated, the `transcription` event is sent, the
`if (isFinal)` reset runs, then `finally` and the caller continuation. -/
def translateReturn (s : SysState) (i : Nat) (r : Except Unit (Option String)) : SysState :=
  match s.tasks[i]? with
  | some (TaskSt.atTranslate blob newText fin caller) =>
    match r with
    | Except.error _ =>
        finishTask { s with emitted := s.emitted ++ [⟨blob, OutEvent.errorEvent⟩] } i caller
    | Except.ok o =>
        let translated : String := o.getD ""
        let s1 : SysState :=
          { s with sess := { s.sess with lastTranslation := translated },
                   emitted := s.emitted ++
                     [⟨blob, OutEvent.transcription newText translated fin⟩] }
        let s2 : SysState :=
          if fin then
            { s1 with sess := { s1.sess with audioChunks := [], lastTranscript := "",
                                             lastTranslation := "" } }
          else s1
        finishTask s2 i caller
  | _ => s

/-- One step of the per-session event loop. -/
def step (s : SysState) : Label → SysState
  | Label.msgAudio a sl tl => handleAudio s a sl tl
  | Label.msgConfig sl tl => handleConfig s sl tl
  | Label.msgStop _ _ _ => handleStop s
  | Label.msgClear => handleClear s
  | Label.timerFire => fireTimer s
  | Label.wsClose => cancelTimer s
  | Label.transcribeRet i r => transcribeReturn s i r
  | Label.translateRet i r => translateReturn s i r

/-- Run a sequence of events. -/
def runTrace (s : SysState) (tr : List Label) : SysState :=
  tr.foldl step s

/-- The fresh `sessionData` record created on connection. -/
def initSession : Session :=
  { audioChunks := [], lastTranscript := "", lastTranslation := "",
    isProcessing := false, sourceLanguage := "zh", targetLanguage := "en",
    timerPending := false }

/-- Initial system state of a fresh session. -/
def initState : SysState :=
  { sess := initSession, tasks := [], emitted := [], timerCount := 0,
    gatewayCalls := [] }

/-- Specification predicate: the runtime holds exactly one live timer when
the session's `processingTimer` reference is set, and none otherwise. -/
def timerInv (s : SysState) : Prop :=
  s.timerCount = if s.sess.timerPending then 1 else 0

/-- Specification predicate: at most one invocation is in flight, and the
`isProcessing` flag marks exactly the in-flight states. -/
def flightInv (s : SysState) : Prop :=
  (s.tasks = [] ∧ s.sess.isProcessing = false) ∨
  (∃ t, s.tasks = [t] ∧ s.sess.isProcessing = true)

/-- Checks along a run that every `clear` message arrives while no
invocation is in flight. -/
def okTrace : SysState → List Label → Bool
  | _, [] => true
  | s, l :: tr =>
      (if l = Label.msgClear then s.tasks.isEmpty else true) &&
      okTrace (step s l) tr

/-- Recognizes `audio` messages. -/
def isAudioMsg : Label → Bool
  | Label.msgAudio _ _ _ => true
  | _ => false

/-- Specification predicate: nothing buffered, scheduled or in flight. -/
def quiescent (s : SysState) : Prop :=
  s.tasks = [] ∧ s.sess.audioChunks = [] ∧ s.sess.timerPending = false ∧
  s.sess.isProcessing = false

/-- Specification predicate: the session was reset by the `stop` path —
empty buffer, blank last-emitted fields, `isProcessing` released. -/
def stopResetP (s : SysState) : Prop :=
  s.sess.audioChunks = [] ∧ s.sess.lastTranscript = "" ∧
  s.sess.lastTranslation = "" ∧ s.sess.isProcessing = false

/-- A session state with the given invocations in flight, used to
instantiate universally quantified theorems at concrete inputs. -/
def mkInFlight (ts : List TaskSt) (g : List Chunk) : SysState :=
  { sess := { initSession with isProcessing := true }, tasks := ts,
    emitted := [], timerCount := 0, gatewayCalls := g }

/-- State after a first `audio` fragment `b` on a fresh session: buffered
and debounce timer armed. -/
def stArmed (b : Chunk) : SysState :=
  { sess := { audioChunks := [b], lastTranscript := "", lastTranslation := "",
              isProcessing := false, sourceLanguage := "zh", targetLanguage := "en",
              timerPending := true },
    tasks := [], emitted := [], timerCount := 1, gatewayCalls := [] }

/-- State after the debounce timer fired on `stArmed b` with `b` at least
4000 bytes: one non-final invocation suspended at the transcription call. -/
def stInFlight (b : Chunk) : SysState :=
  { sess := { audioChunks := [b], lastTranscript := "", lastTranslation := "",
              isProcessing := true, sourceLanguage := "zh", targetLanguage := "en",
              timerPending := false },
    tasks := [TaskSt.atTranscribe b false Caller.timer], emitted := [],
    timerCount := 0, gatewayCalls := [b] }

/-- State after the transcription of `stInFlight b` returned the new text
`"hi"`: `lastTranscript` already updated, suspended at the chat call. -/
def stAtChat (b : Chunk) : SysState :=
  { sess := { audioChunks := [b], lastTranscript := "hi", lastTranslation := "",
              isProcessing := true, sourceLanguage := "zh", targetLanguage := "en",
              timerPending := false },
    tasks := [TaskSt.atTranslate b "hi" false Caller.timer], emitted := [],
    timerCount := 0, gatewayCalls := [b] }

/-- State after the chat call of `stAtChat b` threw: error event emitted,
`lastTranscript` still `"hi"`, buffer retained, timer re-armed. -/
def stChatFailed (b : Chunk) : SysState :=
  { sess := { audioChunks := [b], lastTranscript := "hi", lastTranslation := "",
              isProcessing := false, sourceLanguage := "zh", targetLanguage := "en",
              timerPending := true },
    tasks := [], emitted := [⟨b, OutEvent.errorEvent⟩], timerCount := 1,
    gatewayCalls := [b] }

/-- State after the transcription of `stInFlight b` returned empty text:
invocation finished without emission, buffer retained, timer re-armed. -/
def stSkipped (b : Chunk) : SysState :=
  { sess := { audioChunks := [b], lastTranscript := "", lastTranslation := "",
              isProcessing := false, sourceLanguage := "zh", targetLanguage := "en",
              timerPending := true },
    tasks := [], emitted := [], timerCount := 1, gatewayCalls := [b] }

/-- `stSkipped b` after a second `audio` fragment `[2]`. -/
def stTwoChunks (b : Chunk) : SysState :=
  { sess := { audioChunks := [b, [2]], lastTranscript := "", lastTranslation := "",
              isProcessing := false, sourceLanguage := "zh", targetLanguage := "en",
              timerPending := true },
    tasks := [], emitted := [], timerCount := 1, gatewayCalls := [b] }

/-- `stTwoChunks b` after the timer fired again: the second gateway call
carries `b ++ [2]`, so the fragment `b` is sent to transcription twice. -/
def stSecondCall (b : Chunk) : SysState :=
  { sess := { audioChunks := [b, [2]], lastTranscript := "", lastTranslation := "",
              isProcessing := true, sourceLanguage := "zh", targetLanguage := "en",
              timerPending := false },
    tasks := [TaskSt.atTranscribe (b ++ [2]) false Caller.timer], emitted := [],
    timerCount := 0, gatewayCalls := [b, b ++ [2]] }

/-- HTTP response of the `/api/translate` endpoint. -/
structure ApiResp where
  status : Nat
  translatedText : Option String
  success : Option Bool
  errorMsg : Option String
deriving DecidableEq

/-- The `POST /api/translate` handler as a function of the request's `text`
field and the chat call's outcome (`Except.ok o` with `o` the
`choices?.[0]?.message?.content` value).  The returned `Bool` records
whether the external chat service was called. -/
def apiTranslate (text : Option String) (chat : Except Unit (Option String)) :
    ApiResp × Bool :=
  if jsFalsy text then
    ({ status := 400, translatedText := none, success := none,
       errorMsg := some "Text required" }, false)
  else
    match chat with
    | Except.error _ =>
        ({ status := 500, translatedText := none, success := none,
           errorMsg := some "Translation failed" }, true)
    | Except.ok content =>
        let translatedText : String :=
          if jsFalsy content then text.getD "" else content.getD ""
        ({ status := 200, translatedText := some translatedText,
           success := some true, errorMsg := none }, true)

/-! Helper lemmas: equations for the resume functions and trace runs. -/

theorem runTrace_cons (s : SysState) (l : Label) (tr : List Label) :
    runTrace s (l :: tr) = runTrace (step s l) tr := rfl

theorem runTrace_nil (s : SysState) : runTrace s [] = s := rfl

theorem transcribeReturn_none (s : SysState) (i : Nat) (r : Except Unit (Option String))
    (ht : s.tasks[i]? = none) : transcribeReturn s i r = s := by
  unfold transcribeReturn
  rw [ht]

theorem transcribeReturn_wrongTask (s : SysState) (i : Nat)
    (r : Except Unit (Option String)) (blob : Chunk) (t : String) (fin : Bool)
    (caller : Caller)
    (ht : s.tasks[i]? = some (TaskSt.atTranslate blob t fin caller)) :
    transcribeReturn s i r = s := by
  unfold transcribeReturn
  rw [ht]

theorem transcribeReturn_error (s : SysState) (i : Nat) (blob : Chunk) (fin : Bool)
    (caller : Caller)
    (ht : s.tasks[i]? = some (TaskSt.atTranscribe blob fin caller))
    (e : Unit) :
    transcribeReturn s i (Except.error e) =
      finishTask
        { s with emitted := s.emitted ++ [⟨blob, OutEvent.errorEvent⟩] } i caller := by
  unfold transcribeReturn
  rw [ht]

theorem transcribeReturn_ok (s : SysState) (i : Nat) (blob : Chunk) (fin : Bool)
    (caller : Caller) (o : Option String)
    (ht : s.tasks[i]? = some (TaskSt.atTranscribe blob fin caller)) :
    transcribeReturn s i (Except.ok o) =
      (if o.getD "" ≠ "" ∧ o.getD "" ≠ s.sess.lastTranscript then
        { s with sess := { s.sess with lastTranscript := o.getD "" },
                 tasks := s.tasks.set i (TaskSt.atTranslate blob (o.getD "") fin caller) }
      else
        finishTask
          (if fin then
            { s with sess := { s.sess with audioChunks := [], lastTranscript := "",
                                           lastTranslation := "" } }
          else s) i caller) := by
  unfold transcribeReturn
  rw [ht]

theorem translateReturn_none (s : SysState) (i : Nat) (r : Except Unit (Option String))
    (ht : s.tasks[i]? = none) : translateReturn s i r = s := by
  unfold translateReturn
  rw [ht]

theorem translateReturn_wrongTask (s : SysState) (i : Nat)
    (r : Except Unit (Option String)) (blob : Chunk) (fin : Bool) (caller : Caller)
    (ht : s.tasks[i]? = some (TaskSt.atTranscribe blob fin caller)) :
    translateReturn s i r = s := by
  unfold translateReturn
  rw [ht]

theorem translateReturn_error (s : SysState) (i : Nat) (blob : Chunk) (t : String)
    (fin : Bool) (caller : Caller)
    (ht : s.tasks[i]? = some (TaskSt.atTranslate blob t fin caller))
    (e : Unit) :
    translateReturn s i (Except.error e) =
      finishTask
        { s with emitted := s.emitted ++ [⟨blob, OutEvent.errorEvent⟩] } i caller := by
  unfold translateReturn
  rw [ht]

theorem translateReturn_ok (s : SysState) (i : Nat) (blob : Chunk) (t : String)
    (fin : Bool) (caller : Caller) (o : Option String)
    (ht : s.tasks[i]? = some (TaskSt.atTranslate blob t fin caller)) :
    translateReturn s i (Except.ok o) =
      finishTask
        (if fin then
          { s with sess := { s.sess with audioChunks := [], lastTranscript := "",
                                         lastTranslation := "" },
                   emitted := s.emitted ++
                     [⟨blob, OutEvent.transcription t (o.getD "") fin⟩] }
        else
          { s with sess := { s.sess with lastTranslation := o.getD "" },
                   emitted := s.emitted ++
                     [⟨blob, OutEvent.transcription t (o.getD "") fin⟩] }) i caller := by
  unfold translateReturn
  rw [ht]

theorem timerInv_cancelTimer (s : SysState) (h : timerInv s) :
    timerInv (cancelTimer s) := by
  simp only [timerInv, cancelTimer] at h ⊢
  split_ifs at h ⊢ <;> simp_all

theorem timerInv_scheduleProcessing (s : SysState) (h : timerInv s) :
    timerInv (scheduleProcessing s) := by
  simp only [timerInv, scheduleProcessing] at h ⊢
  split_ifs at h ⊢ <;> simp_all

theorem timerInv_runCallerCont (s : SysState) (c : Caller) (h : timerInv s) :
    timerInv (runCallerCont s c) := by
  cases c with
  | stop => simpa [timerInv, runCallerCont] using h
  | timer =>
      simp only [runCallerCont]
      split_ifs with h1
      · exact h
      · exact timerInv_scheduleProcessing s h

theorem timerInv_sessUpdate (s : SysState) (sess' : Session)
    (hp : sess'.timerPending = s.sess.timerPending) (h : timerInv s) :
    timerInv { s with sess := sess' } := by
  simpa [timerInv, hp] using h

theorem timerInv_startInvocation (s : SysState) (fin : Bool) (c : Caller)
    (h : timerInv s) : timerInv (startInvocation s fin c) := by
  simp only [startInvocation]
  split_ifs <;>
    first
      | exact timerInv_runCallerCont _ _ h
      | exact timerInv_runCallerCont _ _ (by simpa [timerInv] using h)
      | simpa [timerInv] using h

theorem timerInv_finishTask (s : SysState) (i : Nat) (c : Caller)
    (h : timerInv s) : timerInv (finishTask s i c) := by
  exact timerInv_runCallerCont _ c (by simpa [timerInv] using h)

theorem timerInv_step (s : SysState) (l : Label) (h : timerInv s) :
    timerInv (step s l) := by
  cases l with
  | msgAudio a sl tl =>
      simp only [step, handleAudio]
      split_ifs with h1
      · simpa [timerInv] using h
      · exact timerInv_scheduleProcessing _ (by simpa [timerInv] using h)
  | msgConfig sl tl => simpa [step, handleConfig, timerInv] using h
  | msgStop a sl tl =>
      exact timerInv_startInvocation _ _ _ (timerInv_cancelTimer s h)
  | msgClear =>
      exact timerInv_cancelTimer _ (by simpa [timerInv] using h)
  | timerFire =>
      simp only [step, fireTimer]
      split_ifs with h1 h2
      · exact h
      · have hp : s.sess.timerPending = true := by
          cases hx : s.sess.timerPending <;> simp_all
        have hc : s.timerCount = 1 := by simpa [timerInv, hp] using h
        exact timerInv_startInvocation _ _ _ (by simp [timerInv, hc])
      · have hp : s.sess.timerPending = true := by
          cases hx : s.sess.timerPending <;> simp_all
        have hc : s.timerCount = 1 := by simpa [timerInv, hp] using h
        simp [timerInv, hc]
  | wsClose => exact timerInv_cancelTimer s h
  | transcribeRet i r =>
      simp only [step]
      rcases ht : s.tasks[i]? with _ | t
      · rw [transcribeReturn_none s i r ht]; exact h
      · cases t with
        | atTranscribe blob fin caller =>
            cases r with
            | error e =>
                rw [transcribeReturn_error s i blob fin caller ht e]
                exact timerInv_finishTask _ i caller (by simpa [timerInv] using h)
            | ok o =>
                rw [transcribeReturn_ok s i blob fin caller o ht]
                split_ifs with h1 h2 <;>
                  first
                    | exact timerInv_finishTask _ i caller (by simpa [timerInv] using h)
                    | simpa [timerInv] using h
        | atTranslate blob t fin caller =>
            rw [transcribeReturn_wrongTask s i r blob t fin caller ht]; exact h
  | translateRet i r =>
      simp only [step]
      rcases ht : s.tasks[i]? with _ | t
      · rw [translateReturn_none s i r ht]; exact h
      · cases t with
        | atTranscribe blob fin caller =>
            rw [translateReturn_wrongTask s i r blob fin caller ht]; exact h
        | atTranslate blob t fin caller =>
            cases r with
            | error e =>
                rw [translateReturn_error s i blob t fin caller ht e]
                exact timerInv_finishTask _ i caller (by simpa [timerInv] using h)
            | ok o =>
                rw [translateReturn_ok s i blob t fin caller o ht]
                split_ifs with h1 <;>
                  exact timerInv_finishTask _ i caller (by simpa [timerInv] using h)

theorem timerInv_runTrace (tr : List Label) : timerInv (runTrace initState tr) := by
  suffices h : ∀ s, timerInv s → timerInv (runTrace s tr) by
    exact h initState (by simp [timerInv, initState, initSession])
  induction tr with
  | nil => intro s hs; simpa [runTrace] using hs
  | cons l tr ih =>
      intro s hs
      rw [runTrace_cons]
      exact ih (step s l) (timerInv_step s l hs)

theorem cancelTimer_timerCount (s : SysState) (h : timerInv s) :
    (cancelTimer s).timerCount = 0 := by
  simp only [timerInv] at h
  simp only [cancelTimer]
  split_ifs with h1 <;> simp_all

theorem startInvocation_stop_timerCount (s : SysState) (fin : Bool) :
    (startInvocation s fin Caller.stop).timerCount = s.timerCount := by
  simp only [startInvocation, runCallerCont]
  split_ifs <;> rfl

/-- C9: for every reachable state of a session, at most one debounce timer
is live at any time (`timerCount ≤ 1`); `scheduleProcessing` is a no-op
while a timer reference is held, and `clear`, `stop` and disconnect steps
leave the session with no live timer. -/
theorem c9_debounce_timer_single :
    (∀ tr : List Label, (runTrace initState tr).timerCount ≤ 1) ∧
    (∀ s : SysState, s.sess.timerPending = true → scheduleProcessing s = s) ∧
    (∀ tr : List Label,
      (step (runTrace initState tr) Label.msgClear).timerCount = 0) ∧
    (∀ (tr : List Label) (a : Option Chunk) (sl tl : Option String),
      (step (runTrace initState tr) (Label.msgStop a sl tl)).timerCount = 0) ∧
    (∀ tr : List Label, (step (runTrace initState tr) Label.wsClose).timerCount = 0) := by
  refine ⟨?_, ?_, ?_, ?_, ?_⟩
  · intro tr
    have h := timerInv_runTrace tr
    simp only [timerInv] at h
    rw [h]
    split_ifs <;> omega
  · intro s hp
    simp [scheduleProcessing, hp]
  · intro tr
    have h := timerInv_runTrace tr
    simp only [timerInv] at h
    simp only [step, handleClear, cancelTimer]
    split_ifs <;> simp_all
  · intro tr a sl tl
    have h := timerInv_runTrace tr
    simp only [step, handleStop]
    rw [startInvocation_stop_timerCount]
    exact cancelTimer_timerCount _ h
  · intro tr
    have h := timerInv_runTrace tr
    simp only [step]
    exact cancelTimer_timerCount _ h

/-- Witness for C9 at concrete inputs: a one-message trace, and the
no-second-timer property at the armed state. -/
theorem c9_debounce_timer_single_witness :
    (runTrace initState [Label.msgAudio [1] none none]).timerCount ≤ 1 ∧
    scheduleProcessing (stArmed [1]) = stArmed [1] ∧
    (step (runTrace initState [Label.msgAudio [1] none none])
        (Label.msgStop none none none)).timerCount = 0 :=
  ⟨c9_debounce_timer_single.1 _,
   c9_debounce_timer_single.2.1 (stArmed [1]) (by decide),
   c9_debounce_timer_single.2.2.2.1 [Label.msgAudio [1] none none] none none none⟩

theorem flightInv_congr (s s' : SysState) (ht : s'.tasks = s.tasks)
    (hp : s'.sess.isProcessing = s.sess.isProcessing) (h : flightInv s) :
    flightInv s' := by
  simp only [flightInv, ht, hp]
  simpa only [flightInv] using h

theorem runCallerCont_tasks (s : SysState) (c : Caller) :
    (runCallerCont s c).tasks = s.tasks := by
  cases c <;> simp only [runCallerCont, scheduleProcessing] <;> split_ifs <;> rfl

theorem runCallerCont_isProcessing (s : SysState) (c : Caller) :
    (runCallerCont s c).sess.isProcessing = s.sess.isProcessing := by
  cases c <;> simp only [runCallerCont, scheduleProcessing] <;> split_ifs <;> rfl

theorem flightInv_task (s : SysState) (h : flightInv s) (i : Nat) (task : TaskSt)
    (ht : s.tasks[i]? = some task) :
    s.tasks = [task] ∧ i = 0 ∧ s.sess.isProcessing = true := by
  rcases h with ⟨he, _⟩ | ⟨t, he, hp⟩
  · rw [he] at ht; simp at ht
  · rw [he] at ht
    cases i with
    | zero => simp at ht; exact ⟨by rw [he, ht], rfl, hp⟩
    | succ n => simp at ht

theorem flightInv_finishTask_single (s : SysState) (c : Caller) (task : TaskSt)
    (he : s.tasks = [task]) : flightInv (finishTask s 0 c) := by
  left
  constructor
  · rw [finishTask, runCallerCont_tasks]
    simp [he]
  · rw [finishTask, runCallerCont_isProcessing]

theorem startInvocation_guard (s : SysState) (fin : Bool) (c : Caller)
    (hg : s.sess.isProcessing = true ∨ s.sess.audioChunks.length = 0) :
    startInvocation s fin c = runCallerCont s c := by
  rw [startInvocation, if_pos hg]

theorem startInvocation_skip (s : SysState) (c : Caller)
    (hproc : s.sess.isProcessing = false) (hne : s.sess.audioChunks.length ≠ 0)
    (hlt : (bufferConcat s.sess.audioChunks).length < 4000) :
    startInvocation s false c =
      runCallerCont { s with sess := { s.sess with isProcessing := false } } c := by
  simp [startInvocation, hproc, hne, hlt]

theorem startInvocation_launch (s : SysState) (c : Caller)
    (hproc : s.sess.isProcessing = false) (hne : s.sess.audioChunks.length ≠ 0)
    (hge : ¬ (bufferConcat s.sess.audioChunks).length < 4000) :
    startInvocation s false c =
      { s with sess := { s.sess with isProcessing := true },
               tasks := s.tasks ++
                 [TaskSt.atTranscribe (bufferConcat s.sess.audioChunks) false c],
               gatewayCalls := s.gatewayCalls ++ [bufferConcat s.sess.audioChunks] } := by
  simp [startInvocation, hproc, hne, hge]

theorem startInvocation_final (s : SysState) (c : Caller)
    (hproc : s.sess.isProcessing = false) (hne : s.sess.audioChunks.length ≠ 0) :
    startInvocation s true c =
      { s with sess := { s.sess with isProcessing := true },
               tasks := s.tasks ++
                 [TaskSt.atTranscribe (bufferConcat s.sess.audioChunks) true c],
               gatewayCalls := s.gatewayCalls ++ [bufferConcat s.sess.audioChunks] } := by
  simp [startInvocation, hproc, hne]

theorem flightInv_startInvocation (s : SysState) (fin : Bool) (c : Caller)
    (h : flightInv s) : flightInv (startInvocation s fin c) := by
  by_cases hg : s.sess.isProcessing = true ∨ s.sess.audioChunks.length = 0
  · rw [startInvocation_guard s fin c hg]
    exact flightInv_congr _ _ (runCallerCont_tasks _ _) (runCallerCont_isProcessing _ _) h
  · have hproc : s.sess.isProcessing = false := by
      rcases hx : s.sess.isProcessing
      · rfl
      · exact absurd (Or.inl hx) hg
    have hne : s.sess.audioChunks.length ≠ 0 := fun hz => hg (Or.inr hz)
    have he : s.tasks = [] := by
      rcases h with ⟨he, _⟩ | ⟨t, _, hp⟩
      · exact he
      · rw [hp] at hproc; cases hproc
    cases fin with
    | true =>
        rw [startInvocation_final s c hproc hne]
        right
        exact ⟨TaskSt.atTranscribe (bufferConcat s.sess.audioChunks) true c,
          by simp [he], rfl⟩
    | false =>
        by_cases hlt : (bufferConcat s.sess.audioChunks).length < 4000
        · rw [startInvocation_skip s c hproc hne hlt]
          left
          constructor
          · rw [runCallerCont_tasks]; exact he
          · rw [runCallerCont_isProcessing]
        · rw [startInvocation_launch s c hproc hne hlt]
          right
          exact ⟨TaskSt.atTranscribe (bufferConcat s.sess.audioChunks) false c,
            by simp [he], rfl⟩

theorem flightInv_step (s : SysState) (l : Label) (h : flightInv s)
    (hc : l = Label.msgClear → s.tasks = []) : flightInv (step s l) := by
  cases l with
  | msgAudio a sl tl =>
      refine flightInv_congr _ _ ?_ ?_ h <;>
        (simp only [step, handleAudio, scheduleProcessing]; split_ifs <;> rfl)
  | msgConfig sl tl =>
      exact flightInv_congr _ _ rfl rfl h
  | msgStop a sl tl =>
      refine flightInv_startInvocation _ _ _ ?_
      refine flightInv_congr _ _ ?_ ?_ h <;>
        (simp only [cancelTimer]; split_ifs <;> rfl)
  | msgClear =>
      left
      have he := hc rfl
      constructor
      · simp only [step, handleClear, cancelTimer]
        split_ifs <;> exact he
      · simp only [step, handleClear, cancelTimer]
        split_ifs <;> rfl
  | timerFire =>
      simp only [step, fireTimer]
      split_ifs with h1 h2
      · exact h
      · refine flightInv_startInvocation _ _ _ ?_
        exact flightInv_congr _ _ rfl rfl h
      · exact flightInv_congr _ _ rfl rfl h
  | wsClose =>
      refine flightInv_congr _ _ ?_ ?_ h <;>
        (simp only [step, cancelTimer]; split_ifs <;> rfl)
  | transcribeRet i r =>
      simp only [step]
      rcases ht : s.tasks[i]? with _ | task
      · rw [transcribeReturn_none s i r ht]; exact h
      · cases task with
        | atTranslate blob t fin caller =>
            rw [transcribeReturn_wrongTask s i r blob t fin caller ht]; exact h
        | atTranscribe blob fin caller =>
            obtain ⟨he, hi, hp⟩ := flightInv_task s h i _ ht
            subst hi
            cases r with
            | error e =>
                rw [transcribeReturn_error s 0 blob fin caller ht e]
                exact flightInv_finishTask_single _ caller
                  (TaskSt.atTranscribe blob fin caller) (by simp [he])
            | ok o =>
                rw [transcribeReturn_ok s 0 blob fin caller o ht]
                split_ifs with hcond hfin
                · right
                  refine ⟨TaskSt.atTranslate blob (o.getD "") fin caller, ?_, hp⟩
                  simp [he]
                · exact flightInv_finishTask_single _ caller
                    (TaskSt.atTranscribe blob fin caller) (by simp [he])
                · exact flightInv_finishTask_single _ caller
                    (TaskSt.atTranscribe blob fin caller) he
  | translateRet i r =>
      simp only [step]
      rcases ht : s.tasks[i]? with _ | task
      · rw [translateReturn_none s i r ht]; exact h
      · cases task with
        | atTranscribe blob fin caller =>
            rw [translateReturn_wrongTask s i r blob fin caller ht]; exact h
        | atTranslate blob t fin caller =>
            obtain ⟨he, hi, hp⟩ := flightInv_task s h i _ ht
            subst hi
            cases r with
            | error e =>
                rw [translateReturn_error s 0 blob t fin caller ht e]
                exact flightInv_finishTask_single _ caller
                  (TaskSt.atTranslate blob t fin caller) (by simp [he])
            | ok o =>
                rw [translateReturn_ok s 0 blob t fin caller o ht]
                split_ifs with hfin <;>
                  exact flightInv_finishTask_single _ caller
                    (TaskSt.atTranslate blob t fin caller) (by simp [he])

theorem flightInv_runTrace : ∀ (tr : List Label) (s : SysState), flightInv s →
    okTrace s tr = true → flightInv (runTrace s tr) := by
  intro tr
  induction tr with
  | nil => intro s hs _; simpa [runTrace] using hs
  | cons l tr ih =>
      intro s hs hok
      simp only [okTrace, Bool.and_eq_true] at hok
      rw [runTrace_cons]
      refine ih (step s l) (flightInv_step s l hs ?_) hok.2
      intro hl
      have h1 := hok.1
      rw [hl] at h1
      simpa [List.isEmpty_iff] using h1

/-- C1 counterexample: the single-flight property fails as stated once a
`clear` message interleaves with an in-flight invocation.  Concretely: an
`audio` fragment followed by `stop` puts a final invocation in flight; a
`clear` then resets `isProcessing` to `false` while that invocation is
still awaiting the transcription service; a further `audio` fragment and a
second `stop` start a second invocation — two invocations are active at
once. -/
theorem c1_single_flight_counterexample :
    (runTrace initState
      [Label.msgAudio [1] none none, Label.msgStop none none none, Label.msgClear,
       Label.msgAudio [2] none none, Label.msgStop none none none]).tasks.length = 2 := by
  decide

/-- C1 (amended): at most one invocation of `processAudioStream` is active
at any time in every reachable state, for every sequence of events — audio
arrivals, timer fires, stops and invocation completions in any
interleaving — provided every `clear` message arrives while no invocation
is in flight.  (The unrestricted claim is refuted by
the counterexample: the `clear` branch resets `isProcessing` while an
invocation is suspended at the external call.) -/
theorem c1_single_flight (tr : List Label) (hok : okTrace initState tr = true) :
    (runTrace initState tr).tasks.length ≤ 1 := by
  have h := flightInv_runTrace tr initState (Or.inl ⟨rfl, rfl⟩) hok
  rcases h with ⟨he, _⟩ | ⟨t, he, _⟩ <;> simp [he]

/-- Witness for C1: a concrete trace containing `audio`, `clear` and `stop`
messages that satisfies the side condition. -/
theorem c1_single_flight_witness :
    okTrace initState
      [Label.msgAudio [1] none none, Label.msgClear,
       Label.msgAudio [2] none none, Label.msgStop none none none] = true ∧
    (runTrace initState
      [Label.msgAudio [1] none none, Label.msgClear,
       Label.msgAudio [2] none none, Label.msgStop none none none]).tasks.length ≤ 1 :=
  ⟨by decide, c1_single_flight _ (by decide)⟩

theorem runCallerCont_gatewayCalls (s : SysState) (c : Caller) :
    (runCallerCont s c).gatewayCalls = s.gatewayCalls := by
  cases c <;> simp only [runCallerCont, scheduleProcessing] <;> split_ifs <;> rfl

theorem runCallerCont_emitted (s : SysState) (c : Caller) :
    (runCallerCont s c).emitted = s.emitted := by
  cases c <;> simp only [runCallerCont, scheduleProcessing] <;> split_ifs <;> rfl

theorem runCallerCont_timer_audioChunks (s : SysState) :
    (runCallerCont s Caller.timer).sess.audioChunks = s.sess.audioChunks := by
  simp only [runCallerCont, scheduleProcessing] <;> split_ifs <;> rfl

theorem cancelTimer_sess_audioChunks (s : SysState) :
    (cancelTimer s).sess.audioChunks = s.sess.audioChunks := by
  simp only [cancelTimer] <;> split_ifs <;> rfl

theorem cancelTimer_isProcessing (s : SysState) :
    (cancelTimer s).sess.isProcessing = s.sess.isProcessing := by
  simp only [cancelTimer] <;> split_ifs <;> rfl

theorem cancelTimer_gatewayCalls (s : SysState) :
    (cancelTimer s).gatewayCalls = s.gatewayCalls := by
  simp only [cancelTimer] <;> split_ifs <;> rfl

/-- C5: the minimum-size policy.  Whenever the debounce timer fires with no
invocation in flight and strictly fewer than 4000 accumulated bytes, the
non-final invocation is skipped: no transcription request is issued, the
audio buffer is left exactly as it was, and `isProcessing` is false
afterwards.  (This also covers the degenerate cases where the timer is not
armed or the buffer is empty, in which no request is issued either.) -/
theorem c5_minimum_size_policy (s : SysState)
    (hproc : s.sess.isProcessing = false)
    (hlt : (bufferConcat s.sess.audioChunks).length < 4000) :
    (step s Label.timerFire).gatewayCalls = s.gatewayCalls ∧
    (step s Label.timerFire).sess.audioChunks = s.sess.audioChunks ∧
    (step s Label.timerFire).sess.isProcessing = false := by
  simp only [step, fireTimer]
  split_ifs with h1 h2
  · exact ⟨rfl, rfl, hproc⟩
  · have hne : s.sess.audioChunks.length ≠ 0 := by
      rcases h2 with ⟨hpos, _⟩
      omega
    rw [startInvocation_skip
      { s with sess := { s.sess with timerPending := false },
               timerCount := s.timerCount - 1 } Caller.timer hproc hne hlt]
    refine ⟨?_, ?_, ?_⟩
    · rw [runCallerCont_gatewayCalls]
    · rw [runCallerCont_timer_audioChunks]
    · rw [runCallerCont_isProcessing]
  · exact ⟨rfl, rfl, hproc⟩

/-- Witness for C5 at a concrete state: timer armed, a single 1-byte
fragment buffered (1 < 4000); the fire is skipped and changes nothing. -/
theorem c5_minimum_size_policy_witness :
    (step (stArmed [1]) Label.timerFire).gatewayCalls = (stArmed [1]).gatewayCalls ∧
    (step (stArmed [1]) Label.timerFire).sess.audioChunks =
      (stArmed [1]).sess.audioChunks ∧
    (step (stArmed [1]) Label.timerFire).sess.isProcessing = false :=
  c5_minimum_size_policy (stArmed [1]) (by decide) (by decide)

/-- C3 counterexample: a `stop` arriving with an empty accumulated buffer
performs no transcription call at all — `processAudioStream` returns at its
empty-buffer guard, so `transcribe` is never called with an empty blob,
contrary to the claim. -/
theorem c3_stop_empty_counterexample :
    (runTrace initState [Label.msgStop none none none]).gatewayCalls = [] := by
  decide

/-- C3 (amended): a `stop`-triggered final invocation bypasses the
4000-byte minimum-size threshold: whenever no invocation is in flight and
the chunk list is non-empty, the transcription gateway is called with the
concatenation of the buffered chunks, regardless of its size (including
sizes below 4000 and even zero bytes).  But when the chunk list is empty
the guard returns first and no gateway call is made. -/
theorem c3_final_bypasses_threshold (s : SysState) (a : Option Chunk)
    (sl tl : Option String) (hproc : s.sess.isProcessing = false) :
    (s.sess.audioChunks.length ≠ 0 →
      (step s (Label.msgStop a sl tl)).gatewayCalls =
        s.gatewayCalls ++ [bufferConcat s.sess.audioChunks]) ∧
    (s.sess.audioChunks.length = 0 →
      (step s (Label.msgStop a sl tl)).gatewayCalls = s.gatewayCalls) := by
  constructor
  · intro hne
    simp only [step, handleStop]
    rw [startInvocation_final (cancelTimer s) Caller.stop
      (by rw [cancelTimer_isProcessing]; exact hproc)
      (by rw [cancelTimer_sess_audioChunks]; exact hne)]
    simp only [cancelTimer_gatewayCalls, cancelTimer_sess_audioChunks]
  · intro hz
    simp only [step, handleStop]
    rw [startInvocation_guard (cancelTimer s) true Caller.stop
      (Or.inr (by rw [cancelTimer_sess_audioChunks]; exact hz))]
    rw [runCallerCont_gatewayCalls, cancelTimer_gatewayCalls]

/-- Witness for C3 at a concrete state: a 2-byte buffer (far below the
4000-byte floor) is still sent to the gateway on `stop`. -/
theorem c3_final_bypasses_threshold_witness :
    (step (stArmed [1, 2]) (Label.msgStop none none none)).gatewayCalls =
      (stArmed [1, 2]).gatewayCalls ++ [bufferConcat (stArmed [1, 2]).sess.audioChunks] :=
  (c3_final_bypasses_threshold (stArmed [1, 2]) none none none (by decide)).1 (by decide)

theorem chain_audio_init (b : Chunk) :
    step initState (Label.msgAudio b none none) = stArmed b := by
  simp [step, handleAudio, scheduleProcessing, jsOr, initState, initSession, stArmed]

theorem chain_fire_armed (b : Chunk) (hb : ¬ b.length < 4000) :
    step (stArmed b) Label.timerFire = stInFlight b := by
  simp [step, fireTimer, startInvocation, bufferConcat, stArmed, stInFlight, hb]

theorem chain_transcribe_hi (b : Chunk) :
    step (stInFlight b) (Label.transcribeRet 0 (Except.ok (some "hi"))) = stAtChat b := by
  simp [step, transcribeReturn, stInFlight, stAtChat]

theorem chain_translate_error (b : Chunk) :
    step (stAtChat b) (Label.translateRet 0 (Except.error ())) = stChatFailed b := by
  simp [step, translateReturn, finishTask, runCallerCont, scheduleProcessing,
    stAtChat, stChatFailed]

theorem chain_transcribe_empty (b : Chunk) :
    step (stInFlight b) (Label.transcribeRet 0 (Except.ok none)) = stSkipped b := by
  simp [step, transcribeReturn, finishTask, runCallerCont, scheduleProcessing,
    stInFlight, stSkipped]

theorem chain_second_audio (b : Chunk) :
    step (stSkipped b) (Label.msgAudio [2] none none) = stTwoChunks b := by
  simp [step, handleAudio, scheduleProcessing, jsOr, stSkipped, stTwoChunks]

theorem chain_second_fire (b : Chunk) (hb : 4000 ≤ b.length) :
    step (stTwoChunks b) Label.timerFire = stSecondCall b := by
  have h : ¬ (b.length + 1 < 4000) := by omega
  simp [step, fireTimer, startInvocation, bufferConcat, stTwoChunks, stSecondCall, h]

/-- C4 counterexample: after a completed non-final invocation the buffer is
NOT cleared, and the same fragment is sent to the transcription gateway
again on the next cycle.  Concretely: a 4000-byte fragment is transcribed
(first gateway call), the buffer still holds it afterwards, and after one
more 1-byte fragment the second gateway call carries the 4000-byte fragment
again (concatenated with the new byte). -/
theorem c4_drain_counterexample :
    (runTrace initState
      [Label.msgAudio (List.replicate 4000 1) none none, Label.timerFire,
       Label.transcribeRet 0 (Except.ok none)]).sess.audioChunks =
      [List.replicate 4000 1] ∧
    (runTrace initState
      [Label.msgAudio (List.replicate 4000 1) none none, Label.timerFire,
       Label.transcribeRet 0 (Except.ok none), Label.msgAudio [2] none none,
       Label.timerFire]).gatewayCalls =
      [List.replicate 4000 1, List.replicate 4000 1 ++ [2]] := by
  have hlen : (List.replicate 4000 1).length = 4000 := List.length_replicate 4000 1
  have hb : ¬ (List.replicate 4000 1).length < 4000 := by rw [hlen]; omega
  have h1 := chain_audio_init (List.replicate 4000 1)
  have h2 := chain_fire_armed (List.replicate 4000 1) hb
  have h3 := chain_transcribe_empty (List.replicate 4000 1)
  have h4 := chain_second_audio (List.replicate 4000 1)
  have h5 := chain_second_fire (List.replicate 4000 1) (by rw [hlen])
  constructor
  · rw [runTrace_cons, runTrace_cons, runTrace_cons, runTrace_nil, h1, h2, h3]
    rfl
  · rw [runTrace_cons, runTrace_cons, runTrace_cons, runTrace_cons, runTrace_cons,
      runTrace_nil, h1, h2, h3, h4, h5]
    rfl

/-- C4 (amended): a non-final invocation that proceeds past the
minimum-size threshold concatenates the session's chunk list into one blob
for the gateway call but does NOT clear the list — the buffer is left
unchanged by the flush, so the same fragments are included again in later
invocations (deduplication happens downstream by comparing transcripts).
The chunk list is cleared only by the final-invocation reset, the `stop`
handler and the `clear` handler; in particular `clear` empties it. -/
theorem c4_flush_keeps_buffer (s : SysState)
    (hp : s.sess.timerPending = true) (hproc : s.sess.isProcessing = false)
    (hne : s.sess.audioChunks.length ≠ 0)
    (hge : ¬ (bufferConcat s.sess.audioChunks).length < 4000) :
    (step s Label.timerFire).sess.audioChunks = s.sess.audioChunks ∧
    (step s Label.timerFire).gatewayCalls =
      s.gatewayCalls ++ [bufferConcat s.sess.audioChunks] ∧
    (step s Label.msgClear).sess.audioChunks = [] := by
  have hmain :
      (step s Label.timerFire).sess.audioChunks = s.sess.audioChunks ∧
      (step s Label.timerFire).gatewayCalls =
        s.gatewayCalls ++ [bufferConcat s.sess.audioChunks] := by
    simp only [step, fireTimer]
    split_ifs with h1 h2
    · rw [hp] at h1; cases h1
    · rw [startInvocation_launch
        { s with sess := { s.sess with timerPending := false },
                 timerCount := s.timerCount - 1 } Caller.timer hproc hne hge]
      exact ⟨rfl, rfl⟩
    · exact absurd ⟨by omega, hproc⟩ h2
  refine ⟨hmain.1, hmain.2, ?_⟩
  simp only [step, handleClear, cancelTimer]
  split_ifs <;> rfl

/-- Witness for C4 at a concrete state: two buffered fragments (4000 bytes
and 1 byte), timer armed; the fire flushes their concatenation to the
gateway and leaves both fragments in the buffer, while `clear` empties it. -/
theorem c4_flush_keeps_buffer_witness :
    (step (stTwoChunks (List.replicate 4000 1)) Label.timerFire).sess.audioChunks =
      (stTwoChunks (List.replicate 4000 1)).sess.audioChunks ∧
    (step (stTwoChunks (List.replicate 4000 1)) Label.timerFire).gatewayCalls =
      (stTwoChunks (List.replicate 4000 1)).gatewayCalls ++
        [bufferConcat (stTwoChunks (List.replicate 4000 1)).sess.audioChunks] ∧
    (step (stTwoChunks (List.replicate 4000 1)) Label.msgClear).sess.audioChunks = [] := by
  have hge : ¬ (bufferConcat
      (stTwoChunks (List.replicate 4000 1)).sess.audioChunks).length < 4000 := by
    rw [show bufferConcat (stTwoChunks (List.replicate 4000 1)).sess.audioChunks =
      List.replicate 4000 1 ++ ([2] ++ []) from rfl]
    rw [List.length_append, List.length_replicate]
    omega
  exact c4_flush_keeps_buffer (stTwoChunks (List.replicate 4000 1)) rfl rfl
    (by rw [show (stTwoChunks (List.replicate 4000 1)).sess.audioChunks.length = 2
      from rfl]; omega) hge

theorem runCallerCont_timer_lastTranscript (s : SysState) :
    (runCallerCont s Caller.timer).sess.lastTranscript = s.sess.lastTranscript := by
  simp only [runCallerCont, scheduleProcessing] <;> split_ifs <;> rfl

theorem runCallerCont_timer_lastTranslation (s : SysState) :
    (runCallerCont s Caller.timer).sess.lastTranslation = s.sess.lastTranslation := by
  simp only [runCallerCont, scheduleProcessing] <;> split_ifs <;> rfl

/-- C2 counterexample: a failure of the translation call does NOT leave
`lastTranscript` unaltered.  Concretely: a 4000-byte fragment is
transcribed to `"hi"` (new, non-empty), `lastTranscript` is set to `"hi"`
before the chat call is awaited; the chat call then throws; the invocation
emits an `error` event and no `transcription` event — yet `lastTranscript`
remains `"hi"`, altered from the prior `""`. -/
theorem c2_transcript_altered_on_failure :
    (runTrace initState
      [Label.msgAudio (List.replicate 4000 1) none none, Label.timerFire,
       Label.transcribeRet 0 (Except.ok (some "hi")),
       Label.translateRet 0 (Except.error ())]).sess.lastTranscript = "hi" ∧
    (runTrace initState
      [Label.msgAudio (List.replicate 4000 1) none none, Label.timerFire,
       Label.transcribeRet 0 (Except.ok (some "hi")),
       Label.translateRet 0 (Except.error ())]).emitted =
      [⟨List.replicate 4000 1, OutEvent.errorEvent⟩] := by
  have hlen : (List.replicate 4000 1).length = 4000 := List.length_replicate 4000 1
  have hb : ¬ (List.replicate 4000 1).length < 4000 := by rw [hlen]; omega
  have h1 := chain_audio_init (List.replicate 4000 1)
  have h2 := chain_fire_armed (List.replicate 4000 1) hb
  have h3 := chain_transcribe_hi (List.replicate 4000 1)
  have h4 := chain_translate_error (List.replicate 4000 1)
  constructor
  · rw [runTrace_cons, runTrace_cons, runTrace_cons, runTrace_cons, runTrace_nil,
      h1, h2, h3, h4]
    rfl
  · rw [runTrace_cons, runTrace_cons, runTrace_cons, runTrace_cons, runTrace_nil,
      h1, h2, h3, h4]
    rfl

/-- C2 (amended): per-step behaviour of last-emitted state and events for
timer-scheduled (non-final) invocations.  (a) When the transcription call
throws, an `error` event is emitted and neither `lastTranscript` nor
`lastTranslation` changes.  (b) When the chat (translation) call throws, an
`error` event is emitted and `lastTranslation` does not change, but
`lastTranscript` keeps the new transcript that was already stored before
the chat call — so a translation failure leaves `lastTranscript` altered,
refining the claimed equivalence.  (c) `lastTranscript` is set exactly when
the transcription returns non-empty text differing from the prior value,
and no event is emitted at that point.  (d) The `transcription` event is
emitted at chat-call completion, carrying the stored transcript. -/
theorem c2_transcript_update_policy :
    (∀ (s : SysState) (i : Nat) (blob : Chunk) (fin : Bool),
      s.tasks[i]? = some (TaskSt.atTranscribe blob fin Caller.timer) →
      (step s (Label.transcribeRet i (Except.error ()))).sess.lastTranscript =
          s.sess.lastTranscript ∧
      (step s (Label.transcribeRet i (Except.error ()))).sess.lastTranslation =
          s.sess.lastTranslation ∧
      (step s (Label.transcribeRet i (Except.error ()))).emitted =
          s.emitted ++ [⟨blob, OutEvent.errorEvent⟩]) ∧
    (∀ (s : SysState) (i : Nat) (blob : Chunk) (t : String) (fin : Bool),
      s.tasks[i]? = some (TaskSt.atTranslate blob t fin Caller.timer) →
      (step s (Label.translateRet i (Except.error ()))).sess.lastTranscript =
          s.sess.lastTranscript ∧
      (step s (Label.translateRet i (Except.error ()))).sess.lastTranslation =
          s.sess.lastTranslation ∧
      (step s (Label.translateRet i (Except.error ()))).emitted =
          s.emitted ++ [⟨blob, OutEvent.errorEvent⟩]) ∧
    (∀ (s : SysState) (i : Nat) (blob : Chunk) (fin : Bool) (caller : Caller)
        (t : String),
      s.tasks[i]? = some (TaskSt.atTranscribe blob fin caller) →
      t ≠ "" → t ≠ s.sess.lastTranscript →
      (step s (Label.transcribeRet i (Except.ok (some t)))).sess.lastTranscript = t ∧
      (step s (Label.transcribeRet i (Except.ok (some t)))).emitted = s.emitted) ∧
    (∀ (s : SysState) (i : Nat) (blob : Chunk) (t u : String) (caller : Caller),
      s.tasks[i]? = some (TaskSt.atTranslate blob t false caller) →
      (step s (Label.translateRet i (Except.ok (some u)))).emitted =
        s.emitted ++ [⟨blob, OutEvent.transcription t u false⟩]) := by
  refine ⟨?_, ?_, ?_, ?_⟩
  · intro s i blob fin ht
    simp only [step]
    rw [transcribeReturn_error s i blob fin Caller.timer ht ()]
    refine ⟨?_, ?_, ?_⟩
    · rw [finishTask, runCallerCont_timer_lastTranscript]
    · rw [finishTask, runCallerCont_timer_lastTranslation]
    · rw [finishTask, runCallerCont_emitted]
  · intro s i blob t fin ht
    simp only [step]
    rw [translateReturn_error s i blob t fin Caller.timer ht ()]
    refine ⟨?_, ?_, ?_⟩
    · rw [finishTask, runCallerCont_timer_lastTranscript]
    · rw [finishTask, runCallerCont_timer_lastTranslation]
    · rw [finishTask, runCallerCont_emitted]
  · intro s i blob fin caller t ht hne hdiff
    simp only [step]
    rw [transcribeReturn_ok s i blob fin caller (some t) ht]
    rw [if_pos (by simpa using ⟨hne, hdiff⟩)]
    exact ⟨rfl, rfl⟩
  · intro s i blob t u caller ht
    simp only [step]
    rw [translateReturn_ok s i blob t false caller (some u) ht]
    simp only [Bool.false_eq_true, if_false]
    rw [finishTask, runCallerCont_emitted]
    rfl

/-- Witness for C2 at concrete in-flight states: a transcription error, a
translation error, a fresh transcript `"hi"`, and a successful translation
`"yo"`, each applied at a 1-byte blob task. -/
theorem c2_transcript_update_policy_witness :
    ((step (stInFlight [9]) (Label.transcribeRet 0 (Except.error ()))).sess.lastTranscript =
        (stInFlight [9]).sess.lastTranscript ∧
      (step (stInFlight [9]) (Label.transcribeRet 0 (Except.error ()))).sess.lastTranslation =
        (stInFlight [9]).sess.lastTranslation ∧
      (step (stInFlight [9]) (Label.transcribeRet 0 (Except.error ()))).emitted =
        (stInFlight [9]).emitted ++ [⟨[9], OutEvent.errorEvent⟩]) ∧
    ((step (stAtChat [9]) (Label.translateRet 0 (Except.ok (some "yo")))).emitted =
        (stAtChat [9]).emitted ++ [⟨[9], OutEvent.transcription "hi" "yo" false⟩]) ∧
    ((step (stInFlight [9]) (Label.transcribeRet 0 (Except.ok (some "hi")))).sess.lastTranscript =
        "hi" ∧
      (step (stInFlight [9]) (Label.transcribeRet 0 (Except.ok (some "hi")))).emitted =
        (stInFlight [9]).emitted) :=
  ⟨c2_transcript_update_policy.1 (stInFlight [9]) 0 [9] false rfl,
   c2_transcript_update_policy.2.2.2 (stAtChat [9]) 0 [9] "hi" "yo" Caller.timer rfl,
   c2_transcript_update_policy.2.2.1 (stInFlight [9]) 0 [9] false Caller.timer "hi" rfl
     (by decide) (by decide)⟩

theorem stopResetP_finishTask (s : SysState) (i : Nat) :
    stopResetP (finishTask s i Caller.stop) :=
  ⟨rfl, rfl, rfl, rfl⟩

/-- C6 counterexample: a `stop` that arrives while an earlier invocation is
still in flight completes its handling immediately (the final invocation
attempt returns at the `isProcessing` guard and the resets run), yet
`isProcessing` is still `true` at that point — it belongs to the in-flight
invocation.  Concretely: `audio` then `stop` puts a final invocation in
flight; a second `stop` completes with the buffer and last-emitted fields
reset but `isProcessing = true`. -/
theorem c6_stop_reset_counterexample :
    (runTrace initState
      [Label.msgAudio [1] none none, Label.msgStop none none none,
       Label.msgStop none none none]).sess.isProcessing = true ∧
    (runTrace initState
      [Label.msgAudio [1] none none, Label.msgStop none none none,
       Label.msgStop none none none]).sess.audioChunks = [] ∧
    (runTrace initState
      [Label.msgAudio [1] none none, Label.msgStop none none none,
       Label.msgStop none none none]).sess.lastTranscript = "" ∧
    (runTrace initState
      [Label.msgAudio [1] none none, Label.msgStop none none none,
       Label.msgStop none none none]).sess.lastTranslation = "" := by
  refine ⟨?_, ?_, ?_, ?_⟩ <;> decide

/-- C6 (amended): after the handling of a `stop` message completes, the
buffer is empty and `lastTranscript`/`lastTranslation` are blank; and
`isProcessing` is additionally `false` provided no other invocation was in
flight when the `stop` arrived.  Handling completes (i) in the same step
when the buffer is empty (the final invocation returns at its guard), or
when the forced final invocation was started, at the resume step that
finishes it — (ii) at the chat-call return with any outcome, or (iii) at
the transcription-call return with a thrown error or with text that is
empty or unchanged. -/
theorem c6_stop_resets_session :
    (∀ (s : SysState) (a : Option Chunk) (sl tl : Option String),
      s.sess.isProcessing = false → s.sess.audioChunks = [] →
      stopResetP (step s (Label.msgStop a sl tl))) ∧
    (∀ (s : SysState) (i : Nat) (blob : Chunk) (t : String) (fin : Bool)
        (r : Except Unit (Option String)),
      s.tasks[i]? = some (TaskSt.atTranslate blob t fin Caller.stop) →
      stopResetP (step s (Label.translateRet i r))) ∧
    (∀ (s : SysState) (i : Nat) (blob : Chunk) (fin : Bool) (o : Option String),
      s.tasks[i]? = some (TaskSt.atTranscribe blob fin Caller.stop) →
      stopResetP (step s (Label.transcribeRet i (Except.error ()))) ∧
      (o.getD "" = "" ∨ o.getD "" = s.sess.lastTranscript →
        stopResetP (step s (Label.transcribeRet i (Except.ok o))))) := by
  refine ⟨?_, ?_, ?_⟩
  · intro s a sl tl hproc hz
    simp only [step, handleStop]
    rw [startInvocation_guard (cancelTimer s) true Caller.stop
      (Or.inr (by rw [cancelTimer_sess_audioChunks, hz]; rfl))]
    exact ⟨rfl, rfl, rfl, by rw [runCallerCont_isProcessing, cancelTimer_isProcessing]; exact hproc⟩
  · intro s i blob t fin r ht
    simp only [step]
    cases r with
    | error e => rw [translateReturn_error s i blob t fin Caller.stop ht e]
                 exact stopResetP_finishTask _ i
    | ok o => rw [translateReturn_ok s i blob t fin Caller.stop o ht]
              exact stopResetP_finishTask _ i
  · intro s i blob fin o ht
    constructor
    · simp only [step]
      rw [transcribeReturn_error s i blob fin Caller.stop ht ()]
      exact stopResetP_finishTask _ i
    · intro hskip
      simp only [step]
      rw [transcribeReturn_ok s i blob fin Caller.stop o ht]
      rw [if_neg (by
        rcases hskip with h | h
        · simp [h]
        · simp [h])]
      exact stopResetP_finishTask _ i

/-- Witness for C6 at concrete inputs: an immediate `stop` on an idle empty
session, a chat-return finishing a stop-triggered final invocation, and a
transcription error finishing one. -/
theorem c6_stop_resets_session_witness :
    stopResetP (step initState (Label.msgStop none none none)) ∧
    stopResetP (step (mkInFlight [TaskSt.atTranslate [7] "hi" true Caller.stop] [[7]])
      (Label.translateRet 0 (Except.ok (some "yo")))) ∧
    stopResetP (step (mkInFlight [TaskSt.atTranscribe [7] true Caller.stop] [[7]])
      (Label.transcribeRet 0 (Except.error ()))) :=
  ⟨c6_stop_resets_session.1 initState none none none rfl rfl,
   c6_stop_resets_session.2.1
     (mkInFlight [TaskSt.atTranslate [7] "hi" true Caller.stop] [[7]])
     0 [7] "hi" true (Except.ok (some "yo")) rfl,
   (c6_stop_resets_session.2.2
     (mkInFlight [TaskSt.atTranscribe [7] true Caller.stop] [[7]])
     0 [7] true none rfl).1⟩

theorem quiescent_step (s : SysState) (l : Label) (hq : quiescent s)
    (hl : isAudioMsg l = false) :
    quiescent (step s l) ∧ (step s l).emitted = s.emitted := by
  obtain ⟨h1, h2, h3, h4⟩ := hq
  have hct : cancelTimer s = s := by
    rw [cancelTimer, if_neg (by rw [h3]; simp)]
  cases l with
  | msgAudio a sl tl => simp [isAudioMsg] at hl
  | msgConfig sl tl =>
      exact ⟨⟨h1, h2, h3, h4⟩, rfl⟩
  | msgStop a sl tl =>
      simp only [step, handleStop, hct]
      rw [startInvocation_guard s true Caller.stop (Or.inr (by rw [h2]; rfl))]
      exact ⟨⟨h1, rfl, h3, h4⟩, rfl⟩
  | msgClear =>
      simp only [step, handleClear]
      rw [cancelTimer, if_neg (by rw [h3] at *; simp)]
      exact ⟨⟨h1, rfl, h3, rfl⟩, rfl⟩
  | timerFire =>
      simp only [step, fireTimer]
      rw [if_pos h3]
      exact ⟨⟨h1, h2, h3, h4⟩, rfl⟩
  | wsClose =>
      have hs : step s Label.wsClose = s := hct
      rw [hs]
      exact ⟨⟨h1, h2, h3, h4⟩, rfl⟩
  | transcribeRet i r =>
      simp only [step]
      rw [transcribeReturn_none s i r (by rw [h1]; simp)]
      exact ⟨⟨h1, h2, h3, h4⟩, rfl⟩
  | translateRet i r =>
      simp only [step]
      rw [translateReturn_none s i r (by rw [h1]; simp)]
      exact ⟨⟨h1, h2, h3, h4⟩, rfl⟩

theorem quiescent_runTrace : ∀ (tr : List Label) (s : SysState), quiescent s →
    (∀ l ∈ tr, isAudioMsg l = false) →
    quiescent (runTrace s tr) ∧ (runTrace s tr).emitted = s.emitted := by
  intro tr
  induction tr with
  | nil => intro s hq _; exact ⟨hq, rfl⟩
  | cons l tr ih =>
      intro s hq htr
      have hl : isAudioMsg l = false := htr l (List.mem_cons_self l tr)
      have hstep := quiescent_step s l hq hl
      rw [runTrace_cons]
      have hrest := ih (step s l) hstep.1 (fun x hx => htr x (List.mem_cons_of_mem l hx))
      exact ⟨hrest.1, by rw [hrest.2, hstep.2]⟩

/-- C8 counterexample: the claim fails when an invocation is in flight at
the moment the `clear` arrives.  Concretely: one `audio` fragment `[1]` is
buffered, a `stop` launches a final invocation over it, then `clear`
resets the session with nothing emitted so far; when the in-flight
invocation's external calls return, a `transcription` event whose
provenance blob is exactly the pre-clear fragment `[1]` is emitted after
the clear. -/
theorem c8_clear_counterexample :
    (runTrace initState
      [Label.msgAudio [1] none none, Label.msgStop none none none,
       Label.msgClear]).emitted = [] ∧
    (runTrace initState
      [Label.msgAudio [1] none none, Label.msgStop none none none,
       Label.msgClear, Label.transcribeRet 0 (Except.ok (some "hi")),
       Label.translateRet 0 (Except.ok (some "yo"))]).emitted =
      [⟨[1], OutEvent.transcription "hi" "yo" true⟩] := by
  constructor <;> decide

/-- C8 (amended): when a `clear` arrives while NO invocation is in flight,
no `transcription` or `error` event is ever emitted afterwards until new
audio arrives — in particular none for audio buffered prior to the clear,
which the clear discarded.  (When an invocation is in flight at the clear,
it still completes and may emit events for pre-clear audio, as the
counterexample shows.) -/
theorem c8_clear_silences_session (s : SysState) (tr : List Label)
    (hts : s.tasks = []) (htr : ∀ l ∈ tr, isAudioMsg l = false) :
    (runTrace (step s Label.msgClear) tr).emitted = s.emitted := by
  have hq : quiescent (step s Label.msgClear) := by
    refine ⟨?_, ?_, ?_, ?_⟩
    · simp only [step, handleClear, cancelTimer]
      split_ifs <;> exact hts
    · simp only [step, handleClear, cancelTimer]
      split_ifs <;> rfl
    · simp only [step, handleClear, cancelTimer]
      split_ifs with h
      · rfl
      · rcases hx : s.sess.timerPending
        · rfl
        · exact absurd hx h
    · simp only [step, handleClear, cancelTimer]
      split_ifs <;> rfl
  have hem : (step s Label.msgClear).emitted = s.emitted := by
    simp only [step, handleClear, cancelTimer]
    split_ifs <;> rfl
  have h := quiescent_runTrace tr (step s Label.msgClear) hq htr
  rw [h.2, hem]

/-- Witness for C8: `clear` on a fresh idle session, followed by a `stop`
and a timer fire, emits nothing. -/
theorem c8_clear_silences_session_witness :
    (runTrace (step initState Label.msgClear)
      [Label.msgStop none none none, Label.timerFire]).emitted =
      initState.emitted :=
  c8_clear_silences_session initState [Label.msgStop none none none, Label.timerFire]
    rfl (by decide)

/-- C7: the `stop` handler ignores the audio payload carried by the `stop`
message.  The step function is entirely independent of that payload, and on
the concrete trace where `[0]` is buffered and the `stop` message carries
the final fragment `[1]`, the only gateway call transcribes `[0]` — the
fragment `[1]` is dropped, although the repository's client sends the last
recorded audio in exactly this field. -/
theorem c7_stop_fragment_dropped :
    (∀ (s : SysState) (a a' : Option Chunk) (sl tl sl' tl' : Option String),
      step s (Label.msgStop a sl tl) = step s (Label.msgStop a' sl' tl')) ∧
    (runTrace initState
      [Label.msgAudio [0] none none,
       Label.msgStop (some [1]) none none]).gatewayCalls = [[0]] := by
  constructor
  · intro s a a' sl tl sl' tl'
    rfl
  · decide

/-- C10: behaviour of `POST /api/translate`.  (a) With a non-empty `text`
and a chat response whose message content is missing or empty, the endpoint
responds 200 with `translatedText` equal to the input text and
`success: true` (the `|| text` fallback), having called the external chat
service.  (b) With a missing or empty `text`, it responds 400 with
`Text required` and never calls the external service. -/
theorem c10_api_translate_fallback :
    (∀ (t : String) (c : Option String), t ≠ "" → jsFalsy c = true →
      apiTranslate (some t) (Except.ok c) =
        ({ status := 200, translatedText := some t, success := some true,
           errorMsg := none }, true)) ∧
    (∀ c : Except Unit (Option String),
      apiTranslate none c =
        ({ status := 400, translatedText := none, success := none,
           errorMsg := some "Text required" }, false) ∧
      apiTranslate (some "") c =
        ({ status := 400, translatedText := none, success := none,
           errorMsg := some "Text required" }, false)) := by
  constructor
  · intro t c ht hc
    have h1 : jsFalsy (some t) = false := by simp [jsFalsy, ht]
    simp [apiTranslate, h1, hc]
  · intro c
    constructor <;> simp [apiTranslate, jsFalsy]

/-- Witness for C10 at concrete inputs: `text = "hola"` with an absent chat
content falls back to `"hola"`; and both rejection cases. -/
theorem c10_api_translate_fallback_witness :
    apiTranslate (some "hola") (Except.ok none) =
      ({ status := 200, translatedText := some "hola", success := some true,
         errorMsg := none }, true) ∧
    apiTranslate none (Except.ok (some "x")) =
      ({ status := 400, translatedText := none, success := none,
         errorMsg := some "Text required" }, false) :=
  ⟨c10_api_translate_fallback.1 "hola" none (by decide) rfl,
   (c10_api_translate_fallback.2 (Except.ok (some "x"))).1⟩
